import Mathlib

/-!
Verification of the gradient-background animation component.

The repository contains two near-duplicate variants of a React component:

* `src/components/GradientBackground.tsx` (namespace `GB` below): a
  configuration table of five `ZoneConfig` records with 13 numeric fields
  plus a shader `type`, and a per-frame tweening loop that interpolates
  the numeric fields toward a target configuration; the three colors
  passed to the renderer are hard-coded literals.

* the unnamed variant (namespace `P0` below): a table of five
  `SectionConfig` records of three hex color strings plus `positionY`,
  with the same tweening loop, interpolating the colors channel-wise via
  `hexToRgb` / `rgbToHex` and `positionY` numerically.

Numbers are modelled as rationals; hex color strings as `List Char`.
JavaScript's 32-bit bitwise operators (`|`, `<<`, `>>`, `&`) are modelled
explicitly with their ToInt32 coercions.
-/

namespace GB

/-- Shader type of a zone: `"sphere" | "waterPlane"` in the source. -/
inductive GType where
  | sphere
  | waterPlane
deriving DecidableEq, Repr, Inhabited

/-- The `ZoneConfig` record from `GradientBackground.tsx`. -/
structure ZoneConfig where
  cameraZoom : ℚ
  cAzimuthAngle : ℚ
  cPolarAngle : ℚ
  cDistance : ℚ
  rotationX : ℚ
  rotationY : ℚ
  rotationZ : ℚ
  positionX : ℚ
  fov : ℚ
  pixelDensity : ℚ
  uDensity : ℚ
  uSpeed : ℚ
  uStrength : ℚ
  type : GType
deriving DecidableEq, Repr, Inhabited

/-- The five hard-coded zone configurations (`ZONE_CONFIGS`). -/
def ZONE_CONFIGS : List ZoneConfig := [
  { cameraZoom := 5.0, cAzimuthAngle := 160, cPolarAngle := 90, cDistance := 2.5,
    rotationX := 0, rotationY := 0, rotationZ := 0, positionX := -2.9,
    fov := 45, pixelDensity := 1.3, uDensity := 3, uSpeed := 0.1, uStrength := 3.8,
    type := GType.sphere },
  { cameraZoom := 2.3, cAzimuthAngle := 180, cPolarAngle := 70, cDistance := 3.6,
    rotationX := 45, rotationY := 10, rotationZ := 50, positionX := -2.6,
    fov := 45, pixelDensity := 1.3, uDensity := 3, uSpeed := 0.1, uStrength := 3.8,
    type := GType.sphere },
  { cameraZoom := 2.3, cAzimuthAngle := 180, cPolarAngle := 90, cDistance := 3.6,
    rotationX := 90, rotationY := 30, rotationZ := 100, positionX := -3.4,
    fov := 45, pixelDensity := 1.3, uDensity := 3, uSpeed := 0.1, uStrength := 3.8,
    type := GType.sphere },
  { cameraZoom := 2.3, cAzimuthAngle := 180, cPolarAngle := 110, cDistance := 3.6,
    rotationX := 5, rotationY := 50, rotationZ := 30, positionX := -2.6,
    fov := 45, pixelDensity := 1.3, uDensity := 3, uSpeed := 0.1, uStrength := 3.8,
    type := GType.sphere },
  { cameraZoom := 1, cAzimuthAngle := 180, cPolarAngle := 90, cDistance := 3.6,
    rotationX := 0, rotationY := 10, rotationZ := 50, positionX := -1.4,
    fov := 50, pixelDensity := 1, uDensity := 1.3, uSpeed := 0.4, uStrength := 4,
    type := GType.waterPlane }
]

/-- Linear interpolation `lerp(a, b, t) = a + (b - a) * t`. -/
def lerp (a b t : ℚ) : ℚ := a + (b - a) * t

/-- Easing curve `easeOutCubic(t) = 1 - Math.pow(1 - t, 3)`. -/
def easeOutCubic (t : ℚ) : ℚ := 1 - (1 - t)^3

/-- Duration constant `TRANSITION_DURATION = 700` (milliseconds). -/
def TRANSITION_DURATION : ℚ := 700

/-- Clamped progress `rawT = Math.min(elapsed / TRANSITION_DURATION, 1)` inside `step`. -/
def rawT (elapsed : ℚ) : ℚ := min (elapsed / TRANSITION_DURATION) 1

/-- One of the 13 keys of `numericKeys` in `animateTo`. -/
inductive NumKey where
  | cameraZoom | cAzimuthAngle | cPolarAngle | cDistance
  | rotationX | rotationY | rotationZ | positionX
  | fov | pixelDensity | uDensity | uSpeed | uStrength
deriving DecidableEq, Repr

/-- Projection of a `ZoneConfig` on one numeric key (`cfg[key]`). -/
def getNum (c : ZoneConfig) : NumKey → ℚ
  | NumKey.cameraZoom => c.cameraZoom
  | NumKey.cAzimuthAngle => c.cAzimuthAngle
  | NumKey.cPolarAngle => c.cPolarAngle
  | NumKey.cDistance => c.cDistance
  | NumKey.rotationX => c.rotationX
  | NumKey.rotationY => c.rotationY
  | NumKey.rotationZ => c.rotationZ
  | NumKey.positionX => c.positionX
  | NumKey.fov => c.fov
  | NumKey.pixelDensity => c.pixelDensity
  | NumKey.uDensity => c.uDensity
  | NumKey.uSpeed => c.uSpeed
  | NumKey.uStrength => c.uStrength

/-- The `newProps` record built by one call of `step`: `type` is copied from
the target and every key of `numericKeys` is set to
`lerp(from[key], target[key], easeOutCubic(rawT))`, where
`elapsed = now - startTime`. The loop over `numericKeys` is unrolled. -/
def stepProps (src tgt : ZoneConfig) (elapsed : ℚ) : ZoneConfig :=
  let t := easeOutCubic (rawT elapsed)
  { cameraZoom := lerp src.cameraZoom tgt.cameraZoom t,
    cAzimuthAngle := lerp src.cAzimuthAngle tgt.cAzimuthAngle t,
    cPolarAngle := lerp src.cPolarAngle tgt.cPolarAngle t,
    cDistance := lerp src.cDistance tgt.cDistance t,
    rotationX := lerp src.rotationX tgt.rotationX t,
    rotationY := lerp src.rotationY tgt.rotationY t,
    rotationZ := lerp src.rotationZ tgt.rotationZ t,
    positionX := lerp src.positionX tgt.positionX t,
    fov := lerp src.fov tgt.fov t,
    pixelDensity := lerp src.pixelDensity tgt.pixelDensity t,
    uDensity := lerp src.uDensity tgt.uDensity t,
    uSpeed := lerp src.uSpeed tgt.uSpeed t,
    uStrength := lerp src.uStrength tgt.uStrength t,
    type := tgt.type }

/-- The condition under which `step` requests another animation frame:
`rawT < 1`. -/
def stepContinues (elapsed : ℚ) : Bool := decide (rawT elapsed < 1)

/-- The `color1="#7b2cbf"` literal passed to `ShaderGradient`, independent of
the animated state. -/
def renderColor1 (_ : ZoneConfig) : List Char := ("#7b2cbf").data

/-- The `color2="#d17db8"` literal passed to `ShaderGradient`. -/
def renderColor2 (_ : ZoneConfig) : List Char := ("#d17db8").data

/-- The `color3="#e6d0de"` literal passed to `ShaderGradient`. -/
def renderColor3 (_ : ZoneConfig) : List Char := ("#e6d0de").data

/-- The closure captured by `animateTo`: the `from` snapshot
(`{ ...currentRef.current }`), the target, and `startTime = performance.now()`. -/
structure AnimState where
  fromCfg : ZoneConfig
  target : ZoneConfig
  startTime : ℚ
deriving DecidableEq, Repr

/-- The component's mutable state together with the browser's
animation-frame queue: `current` is `currentRef.current`, `props` is the
`gradientProps` React state, `animFrame` is `animFrameRef.current` (0 = no
handle), `pending` is the queue of animation-frame callback ids the browser
still has scheduled, `nextId` is the id `requestAnimationFrame` returns next
(ids start at 1, so a handle is never 0), `anim` is the closure of the most
recently scheduled `step`, and `mounted` records whether the
`gradient-transition` listener is installed. -/
structure CompState where
  current : ZoneConfig
  props : ZoneConfig
  animFrame : ℕ
  pending : List ℕ
  nextId : ℕ
  anim : Option AnimState
  mounted : Bool
deriving DecidableEq, Repr

/-- Initial state: both `gradientProps` and `currentRef` start as a copy of
`ZONE_CONFIGS[0]`, no frame scheduled. -/
def initState : CompState :=
  { current := ZONE_CONFIGS.headI, props := ZONE_CONFIGS.headI,
    animFrame := 0, pending := [], nextId := 1, anim := none, mounted := true }

/-- Function `animateTo(target)`: cancel the pending frame if `animFrameRef.current`
is non-zero, snapshot `from := { ...currentRef.current }` and
`startTime := performance.now()`, then request a new frame for `step` and
store its handle. -/
def animateToFun (tgt : ZoneConfig) (now : ℚ) (s : CompState) : CompState :=
  let s1 := if s.animFrame ≠ 0 then
      { s with pending := s.pending.erase s.animFrame } else s
  { s1 with
    anim := some { fromCfg := s.current, target := tgt, startTime := now },
    pending := s1.pending ++ [s1.nextId],
    animFrame := s1.nextId,
    nextId := s1.nextId + 1 }

/-- The browser fires the next pending animation-frame callback at time
`now`: the fired id leaves the queue and the scheduled `step` closure runs,
writing `newProps` to both `currentRef.current` and `gradientProps`, then
either requesting the next frame (`rawT < 1`) or clearing
`animFrameRef.current`. If nothing is pending, nothing happens. -/
def fireFrame (now : ℚ) (s : CompState) : CompState :=
  match s.pending with
  | [] => s
  | _ :: rest =>
    match s.anim with
    | none => { s with pending := rest }
    | some a =>
      let e := now - a.startTime
      let np := stepProps a.fromCfg a.target e
      let s2 := { s with pending := rest, current := np, props := np }
      if stepContinues e then
        { s2 with animFrame := s2.nextId,
                  pending := s2.pending ++ [s2.nextId],
                  nextId := s2.nextId + 1 }
      else
        { s2 with animFrame := 0 }

/-- The `useEffect` cleanup: remove the event listener and cancel the
pending frame if `animFrameRef.current` is non-zero. -/
def unmountFun (s : CompState) : CompState :=
  let s1 : CompState := { s with mounted := false }
  if s1.animFrame ≠ 0 then
    { s1 with pending := s1.pending.erase s1.animFrame } else s1

/-- Lookup `ZONE_CONFIGS[zoneIndex]` for an integer index: JavaScript indexing
yields `undefined` for a negative or out-of-range index. -/
def getConfig (i : ℤ) : Option ZoneConfig :=
  if i < 0 then none else ZONE_CONFIGS[i.toNat]?

/-- The `gradient-transition` handler: look up `ZONE_CONFIGS[zoneIndex]` and
call `animateTo(config)` only when the lookup yields a config. -/
def handleTransition (i : ℤ) (now : ℚ) (s : CompState) : CompState :=
  match getConfig i with
  | some c => animateToFun c now s
  | none => s

/-- External events driving the component: a `gradient-transition` custom
event, the browser firing an animation frame, and unmounting. -/
inductive Ev where
  | transitionEv (zoneIndex : ℤ) (now : ℚ)
  | frameEv (now : ℚ)
  | unmountEv
deriving DecidableEq, Repr

/-- One event step: transition events reach the handler only while the
listener is installed. -/
def applyEv (s : CompState) : Ev → CompState
  | Ev.transitionEv i now => if s.mounted then handleTransition i now s else s
  | Ev.frameEv now => fireFrame now s
  | Ev.unmountEv => unmountFun s

/-- Run the component from its initial state through a list of events. -/
def run (evs : List Ev) : CompState := evs.foldl applyEv initState

/-- State invariant: a cleared handle means an empty queue, at most one
callback is ever queued, a non-empty queue holds exactly the current handle
whose closure is recorded, and handles are positive. -/
def Inv (s : CompState) : Prop :=
  (s.animFrame = 0 → s.pending = []) ∧
  s.pending.length ≤ 1 ∧
  (s.pending ≠ [] →
    s.pending = [s.animFrame] ∧ s.animFrame ≠ 0 ∧ s.anim.isSome) ∧
  0 < s.nextId

end GB

namespace P0

/-- The `SectionConfig` record from the unnamed variant: three hex color strings
and a vertical position. -/
structure SectionConfig where
  color1 : List Char
  color2 : List Char
  color3 : List Char
  positionY : ℚ
deriving DecidableEq, Repr

/-- The five hard-coded section configurations (`SECTION_CONFIGS`). -/
def SECTION_CONFIGS : List SectionConfig := [
  { color1 := ("#ff5005").data, color2 := ("#dbba95").data,
    color3 := ("#d0bce1").data, positionY := -1.8 },
  { color1 := ("#ff5005").data, color2 := ("#dbba95").data,
    color3 := ("#d0bce1").data, positionY := -1.8 },
  { color1 := ("#0466c8").data, color2 := ("#7ab8cc").data,
    color3 := ("#c1d0c8").data, positionY := -0.6 },
  { color1 := ("#2eab5e").data, color2 := ("#a8d840").data,
    color3 := ("#d2ebd8").data, positionY := 0.6 },
  { color1 := ("#7b2cbf").data, color2 := ("#d17db8").data,
    color3 := ("#e6d0de").data, positionY := 1.8 }
]

/-- Value of one hex digit, as accepted by `parseInt(-, 16)`. -/
def hexDigitVal? (c : Char) : Option ℕ :=
  if '0' ≤ c ∧ c ≤ '9' then some (c.toNat - 48)
  else if 'a' ≤ c ∧ c ≤ 'f' then some (c.toNat - 87)
  else if 'A' ≤ c ∧ c ≤ 'F' then some (c.toNat - 55)
  else none

/-- Numeric value of a list of hex digits (most significant first). -/
def ofHexDigits (l : List Char) : ℕ :=
  l.foldl (fun acc c => 16 * acc + (hexDigitVal? c).getD 0) 0

/-- Model of `parseInt(s, 16)`: parse the longest hex-digit prefix, `NaN` (here
`none`) when it is empty. -/
def parseHexPrefix (l : List Char) : Option ℕ :=
  let p := l.takeWhile (fun c => (hexDigitVal? c).isSome)
  if p.isEmpty then none else some (ofHexDigits p)

/-- Low 32 bits of an integer (the bit pattern `ToUint32` produces). -/
def bits32 (a : ℤ) : ℕ := (a % (2^32 : ℤ)).toNat

/-- Reinterpret a 32-bit pattern as a signed integer (`ToInt32`). -/
def signedOfBits32 (n : ℕ) : ℤ :=
  if n < 2^31 then (n : ℤ) else (n : ℤ) - 2^32

/-- JavaScript `ToInt32` conversion. -/
def jsToInt32 (a : ℤ) : ℤ := signedOfBits32 (bits32 a)

/-- JavaScript `a | b` on 32-bit integers. -/
def jsOr (a b : ℤ) : ℤ := signedOfBits32 (Nat.lor (bits32 a) (bits32 b))

/-- JavaScript `a & b` on 32-bit integers. -/
def jsAnd (a b : ℤ) : ℤ := signedOfBits32 (Nat.land (bits32 a) (bits32 b))

/-- JavaScript `a << k` on 32-bit integers (shift count taken mod 32). -/
def jsShl (a : ℤ) (k : ℕ) : ℤ :=
  signedOfBits32 ((bits32 a <<< (k % 32)) % 2^32)

/-- JavaScript sign-propagating `a >> k` (arithmetic shift = floor division
of the `ToInt32` value). -/
def jsShr (a : ℤ) (k : ℕ) : ℤ := Int.fdiv (jsToInt32 a) (2^(k % 32))

/-- Function `hexToRgb`: parse the digits after the `#` and extract the three byte
channels with `>> / &`; `parseInt` returning `NaN` makes every channel 0
because `ToInt32(NaN) = 0`. -/
def hexToRgb (hex : List Char) : ℚ × ℚ × ℚ :=
  match parseHexPrefix (hex.drop 1) with
  | some n => (((jsAnd (jsShr (n : ℤ) 16) 255 : ℤ) : ℚ),
               ((jsAnd (jsShr (n : ℤ) 8) 255 : ℤ) : ℚ),
               ((jsAnd (n : ℤ) 255 : ℤ) : ℚ))
  | none => (0, 0, 0)

/-- Rounding `Math.round`: round half toward positive infinity. -/
def jsRound (q : ℚ) : ℤ := ⌊q + 1/2⌋

/-- Lowercase hex digit character, as produced by `toString(16)`. -/
def toHexDigitChar (n : ℕ) : Char :=
  if n < 10 then Char.ofNat (48 + n) else Char.ofNat (87 + n)

/-- Hex representation of a natural number (lowercase, no leading zeros),
as produced by `Number.prototype.toString(16)` on integers. -/
def toHexChars (n : ℕ) : List Char :=
  if _h : n < 16 then [toHexDigitChar n]
  else toHexChars (n / 16) ++ [toHexDigitChar (n % 16)]
decreasing_by exact Nat.div_lt_self (by omega) (by norm_num)

/-- Model of `toString(16)` on a possibly negative integer. -/
def toHexCharsInt (i : ℤ) : List Char :=
  if i < 0 then '-' :: toHexChars i.natAbs else toHexChars i.toNat

/-- Function `rgbToHex`: `"#" + ((1 << 24) | (round r << 16) | (round g << 8)
| round b).toString(16).slice(1)`. -/
def rgbToHex (r g b : ℚ) : List Char :=
  let num := jsOr (jsOr (jsOr (jsShl 1 24) (jsShl (jsRound r) 16))
    (jsShl (jsRound g) 8)) (jsRound b)
  '#' :: (toHexCharsInt num).drop 1

/-- Function `lerpColor`: channel-wise linear interpolation between two hex
colors. -/
def lerpColor (f c : List Char) (s : ℚ) : List Char :=
  let (r1, g1, b1) := hexToRgb f
  let (r2, g2, b2) := hexToRgb c
  rgbToHex (r1 + (r2 - r1) * s) (g1 + (g2 - g1) * s) (b1 + (b2 - b1) * s)

/-- Linear interpolation `lerp` of the unnamed variant. -/
def lerp (a b t : ℚ) : ℚ := a + (b - a) * t

/-- Easing curve `easeOutCubic` of the unnamed variant. -/
def easeOutCubic (t : ℚ) : ℚ := 1 - (1 - t)^3

/-- Duration constant `TRANSITION_DURATION = 700` (unnamed variant). -/
def TRANSITION_DURATION : ℚ := 700

/-- Clamped progress `rawT` of the unnamed variant. -/
def rawT (elapsed : ℚ) : ℚ := min (elapsed / TRANSITION_DURATION) 1

/-- The `newProps` record built by one call of `step` in the unnamed
variant: the three colors interpolate via `lerpColor` and `positionY` via
`lerp`, at `t = easeOutCubic(rawT)`. -/
def stepProps (src tgt : SectionConfig) (elapsed : ℚ) : SectionConfig :=
  let t := easeOutCubic (rawT elapsed)
  { color1 := lerpColor src.color1 tgt.color1 t,
    color2 := lerpColor src.color2 tgt.color2 t,
    color3 := lerpColor src.color3 tgt.color3 t,
    positionY := lerp src.positionY tgt.positionY t }

/-- Well-formed lowercase hex color: `'#'` followed by exactly six lowercase
hex digits (`0`-`9`, `a`-`f`). -/
def isLowerHexDigit (c : Char) : Bool :=
  ('0' ≤ c && c ≤ '9') || ('a' ≤ c && c ≤ 'f')

/-- A string of the form `"#rrggbb"` with lowercase hex digits. -/
def WellFormedHex (l : List Char) : Prop :=
  l.length = 7 ∧ l.take 1 = ['#'] ∧ (l.drop 1).all isLowerHexDigit

instance (l : List Char) : Decidable (WellFormedHex l) := by
  unfold WellFormedHex
  infer_instance

/-- Fixed-width hex digits of `m`, `k` digits, most significant first
(padding with `'0'`). -/
def hexPad : ℕ → ℕ → List Char
  | 0, _ => []
  | k+1, m => hexPad k (m / 16) ++ [toHexDigitChar (m % 16)]

end P0

/-- C1: at elapsed time `e ≥ 0`, each numeric parameter produced by a `step`
of the `GradientBackground.tsx` transition equals
`from + (target - from) * easeOutCubic (min (e / 700) 1)`, with
`easeOutCubic t = 1 - (1 - t)^3`. -/
theorem c1_step_numeric_formula (src tgt : GB.ZoneConfig) (e : ℚ) (k : GB.NumKey)
    (he : 0 ≤ e) :
    GB.getNum (GB.stepProps src tgt e) k =
      GB.getNum src k + (GB.getNum tgt k - GB.getNum src k) *
        (1 - (1 - min (e / 700) 1)^3) := by
  cases k <;>
    simp [GB.stepProps, GB.getNum, GB.lerp, GB.easeOutCubic, GB.rawT,
      GB.TRANSITION_DURATION]

/-- Witness for C1: the concrete instance at zone 0 → zone 1, elapsed 350,
key `cameraZoom`. -/
theorem c1_step_numeric_formula_witness :
    (0 : ℚ) ≤ 350 ∧
    GB.getNum (GB.stepProps (GB.ZONE_CONFIGS.get ⟨0, by decide⟩)
        (GB.ZONE_CONFIGS.get ⟨1, by decide⟩) 350) GB.NumKey.cameraZoom =
      GB.getNum (GB.ZONE_CONFIGS.get ⟨0, by decide⟩) GB.NumKey.cameraZoom +
        (GB.getNum (GB.ZONE_CONFIGS.get ⟨1, by decide⟩) GB.NumKey.cameraZoom -
          GB.getNum (GB.ZONE_CONFIGS.get ⟨0, by decide⟩) GB.NumKey.cameraZoom) *
          (1 - (1 - min ((350 : ℚ) / 700) 1)^3) :=
  ⟨by norm_num,
   c1_step_numeric_formula (GB.ZONE_CONFIGS.get ⟨0, by decide⟩)
     (GB.ZONE_CONFIGS.get ⟨1, by decide⟩) 350 GB.NumKey.cameraZoom (by norm_num)⟩

namespace P0

theorem toHexDigitChar_hex (v : ℕ) (h : v < 16) :
    isLowerHexDigit (toHexDigitChar v) = true := by
  interval_cases v <;> decide

theorem hexPad_length (k m : ℕ) : (hexPad k m).length = k := by
  induction k generalizing m with
  | zero => rfl
  | succ k ih => simp [hexPad, ih]

theorem hexPad_all_hex (k m : ℕ) : (hexPad k m).all isLowerHexDigit = true := by
  induction k generalizing m with
  | zero => rfl
  | succ k ih =>
    simp only [hexPad, List.all_append, ih, Bool.true_and, List.all_cons,
      List.all_nil, Bool.and_true]
    exact toHexDigitChar_hex _ (Nat.mod_lt _ (by norm_num))

theorem toHexChars_pow (k : ℕ) : ∀ m, m < 16^k →
    toHexChars (16^k + m) = '1' :: hexPad k m := by
  induction k with
  | zero =>
    intro m hm
    interval_cases m
    rw [toHexChars]
    decide
  | succ k ih =>
    intro m hm
    have h16 : ¬ (16^(k+1) + m < 16) := by
      have : 16 ≤ 16^(k+1) := Nat.le_self_pow (by omega) 16
      omega
    rw [toHexChars, dif_neg h16]
    have hdiv : (16^(k+1) + m) / 16 = 16^k + m / 16 := by
      rw [pow_succ]
      omega
    have hmod : (16^(k+1) + m) % 16 = m % 16 := by
      have : 16^(k+1) % 16 = 0 := by
        rw [pow_succ]
        omega
      omega
    rw [hdiv, hmod, ih (m / 16) (by rw [pow_succ] at hm; omega)]
    rfl

end P0

namespace P0

theorem hexDigit_roundtrip (c : Char) (h : isLowerHexDigit c = true) :
    (hexDigitVal? c).isSome = true ∧ (hexDigitVal? c).getD 0 < 16 ∧
      toHexDigitChar ((hexDigitVal? c).getD 0) = c := by
  simp only [isLowerHexDigit, Bool.or_eq_true, Bool.and_eq_true,
    decide_eq_true_eq] at h
  rcases h with ⟨h1, h2⟩ | ⟨h1, h2⟩
  · have hlo : 48 ≤ c.toNat := h1
    have hhi : c.toNat ≤ 57 := h2
    have hv : hexDigitVal? c = some (c.toNat - 48) := by
      unfold hexDigitVal?
      rw [if_pos ⟨h1, h2⟩]
    refine ⟨by simp [hv], by simp [hv]; omega, ?_⟩
    rw [hv]
    simp only [Option.getD_some]
    unfold toHexDigitChar
    rw [if_pos (by omega), show 48 + (c.toNat - 48) = c.toNat by omega]
    exact Char.ofNat_toNat c
  · have hlo : 97 ≤ c.toNat := h1
    have hhi : c.toNat ≤ 102 := h2
    have hnd : ¬('0' ≤ c ∧ c ≤ '9') := by
      rintro ⟨-, hc⟩
      have : c.toNat ≤ 57 := hc
      omega
    have hv : hexDigitVal? c = some (c.toNat - 87) := by
      unfold hexDigitVal?
      rw [if_neg hnd, if_pos ⟨h1, h2⟩]
    refine ⟨by simp [hv], by simp [hv]; omega, ?_⟩
    rw [hv]
    simp only [Option.getD_some]
    unfold toHexDigitChar
    rw [if_neg (by omega), show 87 + (c.toNat - 87) = c.toNat by omega]
    exact Char.ofNat_toNat c

end P0

namespace P0

theorem ofHexDigits_append (l : List Char) (c : Char) :
    ofHexDigits (l ++ [c]) = 16 * ofHexDigits l + (hexDigitVal? c).getD 0 := by
  unfold ofHexDigits
  rw [List.foldl_append]
  rfl

theorem ofHexDigits_lt (l : List Char) (h : l.all isLowerHexDigit = true) :
    ofHexDigits l < 16 ^ l.length := by
  induction l using List.reverseRecOn with
  | nil => decide
  | append_singleton l c ih =>
    simp only [List.all_append, List.all_cons, List.all_nil, Bool.and_true,
      Bool.and_eq_true] at h
    obtain ⟨hl, hc⟩ := h
    have hv := (hexDigit_roundtrip c hc).2.1
    have := ih hl
    rw [ofHexDigits_append]
    simp only [List.length_append, List.length_cons, List.length_nil]
    rw [pow_succ]
    omega

theorem hexPad_ofHexDigits (l : List Char) (h : l.all isLowerHexDigit = true) :
    hexPad l.length (ofHexDigits l) = l := by
  induction l using List.reverseRecOn with
  | nil => rfl
  | append_singleton l c ih =>
    simp only [List.all_append, List.all_cons, List.all_nil, Bool.and_true,
      Bool.and_eq_true] at h
    obtain ⟨hl, hc⟩ := h
    obtain ⟨-, hv, hrt⟩ := hexDigit_roundtrip c hc
    rw [ofHexDigits_append]
    simp only [List.length_append, List.length_cons, List.length_nil]
    show hexPad (l.length + 1) _ = _
    rw [hexPad]
    have hdiv : (16 * ofHexDigits l + (hexDigitVal? c).getD 0) / 16 =
        ofHexDigits l := by omega
    have hmod : (16 * ofHexDigits l + (hexDigitVal? c).getD 0) % 16 =
        (hexDigitVal? c).getD 0 := by omega
    rw [hdiv, hmod, ih hl, hrt]

theorem takeWhile_all (p : Char → Bool) (l : List Char)
    (h : ∀ c ∈ l, p c = true) : l.takeWhile p = l := by
  induction l with
  | nil => rfl
  | cons c t ih =>
    rw [List.takeWhile_cons, h c (by simp), ih (fun x hx => h x (by simp [hx]))]
    simp

end P0

namespace P0

theorem lor_two_pow_mul (k : ℕ) : ∀ a b : ℕ, b < 2^k →
    (a * 2^k) ||| b = a * 2^k + b := by
  induction k with
  | zero =>
    intro a b hb
    interval_cases b
    simp
  | succ k ih =>
    intro a b hb
    have h1 : a * 2^(k+1) = Nat.bit false (a * 2^k) := by
      simp [Nat.bit_val]
      ring
    have h2 : b = Nat.bit b.bodd b.div2 := (Nat.bit_decomp b).symm
    have hdiv : b.div2 < 2^k := by
      rw [Nat.div2_val]
      omega
    rw [h1, h2, Nat.lor_bit, Bool.false_or, ih _ _ hdiv]
    have h3 := Nat.bodd_add_div2 b
    rw [Nat.bit_val, Nat.div2_val]
    rw [Nat.div2_val] at h3
    cases hbo : b.bodd <;> rw [hbo] at h3 <;> simp at h3 ⊢ <;> omega

theorem bits32_ofNat (n : ℕ) (h : n < 2^32) : bits32 (n : ℤ) = n := by
  unfold bits32
  rw [Int.emod_eq_of_lt (by positivity) (by exact_mod_cast h)]
  exact Int.toNat_ofNat n

theorem signedOfBits32_small (n : ℕ) (h : n < 2^31) : signedOfBits32 n = (n : ℤ) := by
  unfold signedOfBits32
  rw [if_pos h]

theorem jsShl_ofNat (a : ℕ) (k : ℕ) (hk : k < 32) (h : a * 2^k < 2^31) :
    jsShl (a : ℤ) k = ((a * 2^k : ℕ) : ℤ) := by
  unfold jsShl
  have ha : a < 2^32 := by nlinarith [Nat.one_le_two_pow (n := k)]
  rw [bits32_ofNat a ha, Nat.mod_eq_of_lt hk, Nat.shiftLeft_eq,
    Nat.mod_eq_of_lt (by omega)]
  exact signedOfBits32_small _ (by omega)

theorem jsOr_ofNat (a b : ℕ) (ha : a < 2^31) (hb : b < 2^31) :
    jsOr (a : ℤ) b = ((a ||| b : ℕ) : ℤ) := by
  unfold jsOr
  rw [bits32_ofNat a (by omega), bits32_ofNat b (by omega)]
  exact signedOfBits32_small _ (Nat.or_lt_two_pow ha hb)

theorem jsAnd_255 (m : ℕ) (h : m < 2^32) :
    jsAnd (m : ℤ) 255 = ((m % 256 : ℕ) : ℤ) := by
  unfold jsAnd
  rw [bits32_ofNat m h, show ((255 : ℤ)) = ((255 : ℕ) : ℤ) by norm_num,
    bits32_ofNat 255 (by norm_num)]
  have h2 : Nat.land m 255 = m % 256 := by
    have := Nat.and_pow_two_sub_one_eq_mod m 8
    norm_num at this
    exact this
  rw [h2]
  exact signedOfBits32_small _ (by omega)

theorem jsShr_ofNat (m : ℕ) (k : ℕ) (hk : k < 32) (h : m < 2^31) :
    jsShr (m : ℤ) k = ((m / 2^k : ℕ) : ℤ) := by
  unfold jsShr jsToInt32
  rw [bits32_ofNat m (by omega), signedOfBits32_small m h, Nat.mod_eq_of_lt hk]
  rw [show ((2:ℤ)^k) = ((2^k : ℕ) : ℤ) by push_cast; ring]
  exact (Int.ofNat_fdiv m (2^k)).symm

theorem jsRound_intCast (z : ℤ) : jsRound ((z : ℤ) : ℚ) = z := by
  unfold jsRound
  rw [Int.floor_int_add]
  norm_num

end P0

namespace P0

theorem hexToRgb_parse (hex : List Char) (n : ℕ)
    (hp : parseHexPrefix (hex.drop 1) = some n) :
    hexToRgb hex = (((jsAnd (jsShr (n : ℤ) 16) 255 : ℤ) : ℚ),
      ((jsAnd (jsShr (n : ℤ) 8) 255 : ℤ) : ℚ), ((jsAnd (n : ℤ) 255 : ℤ) : ℚ)) := by
  simp only [hexToRgb, hp]

theorem hexToRgb_wf (l : List Char) (hlen : l.length = 6)
    (h : l.all isLowerHexDigit = true) :
    hexToRgb ('#' :: l) =
      ((↑(ofHexDigits l / 65536) : ℚ), (↑(ofHexDigits l / 256 % 256) : ℚ),
        (↑(ofHexDigits l % 256) : ℚ)) := by
  have hn : ofHexDigits l < 16777216 := by
    have h2 := ofHexDigits_lt l h
    rw [hlen] at h2
    norm_num at h2
    exact h2
  have hne : l ≠ [] := by
    intro he
    rw [he] at hlen
    simp at hlen
  have htw : l.takeWhile (fun c => (hexDigitVal? c).isSome) = l := by
    apply takeWhile_all
    intro c hc
    have hch : isLowerHexDigit c = true := by
      rw [List.all_eq_true] at h
      exact h c hc
    exact (hexDigit_roundtrip c hch).1
  have hp : parseHexPrefix (('#' :: l).drop 1) = some (ofHexDigits l) := by
    unfold parseHexPrefix
    simp only [List.drop_one, List.tail_cons, htw]
    rw [if_neg (by simpa [List.isEmpty_iff] using hne)]
  rw [hexToRgb_parse _ _ hp]
  set n := ofHexDigits l with hn_def
  have e16 : jsShr (n : ℤ) 16 = ((n / 65536 : ℕ) : ℤ) := by
    have h2 := jsShr_ofNat n 16 (by norm_num) (by omega)
    norm_num at h2
    exact h2
  have e8 : jsShr (n : ℤ) 8 = ((n / 256 : ℕ) : ℤ) := by
    have h2 := jsShr_ofNat n 8 (by norm_num) (by omega)
    norm_num at h2
    exact h2
  rw [e16, e8, jsAnd_255 (n / 65536) (by omega), jsAnd_255 (n / 256) (by omega),
    jsAnd_255 n (by omega)]
  have hd : n / 65536 % 256 = n / 65536 := Nat.mod_eq_of_lt (by omega)
  rw [hd]
  norm_cast

theorem num_bytes (R G B : ℕ) (hR : R < 256) (hG : G < 256) (hB : B < 256) :
    ((16777216 ||| R * 65536) ||| G * 256) ||| B =
      16777216 + R * 65536 + G * 256 + B := by
  have k1 : (16777216 : ℕ) ||| R * 65536 = 16777216 + R * 65536 := by
    have h2 := lor_two_pow_mul 24 1 (R * 65536) (by omega)
    norm_num at h2
    exact h2
  have k2 : (16777216 + R * 65536) ||| G * 256 =
      16777216 + R * 65536 + G * 256 := by
    have he : 16777216 + R * 65536 = (256 + R) * 2^16 := by ring
    rw [he, lor_two_pow_mul 16 (256 + R) (G * 256) (by omega)]
  have k3 : (16777216 + R * 65536 + G * 256) ||| B =
      16777216 + R * 65536 + G * 256 + B := by
    have he : 16777216 + R * 65536 + G * 256 = (65536 + R * 256 + G) * 2^8 := by
      ring
    rw [he, lor_two_pow_mul 8 (65536 + R * 256 + G) B (by omega)]
  rw [k1, k2, k3]

end P0

namespace P0

theorem rgbToHex_bounded (r g b : ℚ)
    (hr0 : 0 ≤ jsRound r) (hr1 : jsRound r ≤ 255)
    (hg0 : 0 ≤ jsRound g) (hg1 : jsRound g ≤ 255)
    (hb0 : 0 ≤ jsRound b) (hb1 : jsRound b ≤ 255) :
    rgbToHex r g b = '#' :: hexPad 6
      ((jsRound r).toNat * 65536 + (jsRound g).toNat * 256 + (jsRound b).toNat) := by
  set R := (jsRound r).toNat with hRdef
  set G := (jsRound g).toNat with hGdef
  set B := (jsRound b).toNat with hBdef
  have hRr : jsRound r = (R : ℤ) := by omega
  have hGg : jsRound g = (G : ℤ) := by omega
  have hBb : jsRound b = (B : ℤ) := by omega
  have hR255 : R < 256 := by omega
  have hG255 : G < 256 := by omega
  have hB255 : B < 256 := by omega
  unfold rgbToHex
  rw [hRr, hGg, hBb]
  have e1 : jsShl ((1 : ℤ)) 24 = (((16777216 : ℕ)) : ℤ) := by
    have h2 := jsShl_ofNat 1 24 (by norm_num) (by norm_num)
    norm_num at h2 ⊢
    exact h2
  have eR : jsShl ((R : ℕ) : ℤ) 16 = ((R * 65536 : ℕ) : ℤ) := by
    have h2 := jsShl_ofNat R 16 (by norm_num) (by omega)
    norm_num at h2 ⊢
    exact_mod_cast h2
  have eG : jsShl ((G : ℕ) : ℤ) 8 = ((G * 256 : ℕ) : ℤ) := by
    have h2 := jsShl_ofNat G 8 (by norm_num) (by omega)
    norm_num at h2 ⊢
    exact_mod_cast h2
  rw [e1, eR, eG]
  rw [jsOr_ofNat 16777216 (R * 65536) (by norm_num) (by omega)]
  rw [jsOr_ofNat (16777216 ||| R * 65536) (G * 256)
    (Nat.or_lt_two_pow (by norm_num) (by omega)) (by omega)]
  rw [jsOr_ofNat ((16777216 ||| R * 65536) ||| G * 256) B
    (Nat.or_lt_two_pow (Nat.or_lt_two_pow (by norm_num) (by omega)) (by omega))
    (by omega)]
  rw [num_bytes R G B hR255 hG255 hB255]
  unfold toHexCharsInt
  dsimp only
  rw [if_neg (by exact not_lt.mpr (Int.natCast_nonneg _)), Int.toNat_ofNat]
  have hsplit : (16777216 + R * 65536 + G * 256 + B : ℕ) =
      16^6 + (R * 65536 + G * 256 + B) := by
    norm_num
    omega

  rw [hsplit, toHexChars_pow 6 _ (by norm_num; omega)]
  simp

end P0

namespace P0

theorem jsRound_natCast (m : ℕ) : jsRound ((m : ℕ) : ℚ) = (m : ℤ) := by
  have h2 := jsRound_intCast (m : ℤ)
  push_cast at h2 ⊢
  exact h2

theorem rgbToHex_natCast (R G B : ℕ) (hR : R < 256) (hG : G < 256) (hB : B < 256) :
    rgbToHex (R : ℚ) (G : ℚ) (B : ℚ) = '#' :: hexPad 6 (R * 65536 + G * 256 + B) := by
  have hb := rgbToHex_bounded (R : ℚ) (G : ℚ) (B : ℚ)
    (by rw [jsRound_natCast]; positivity) (by rw [jsRound_natCast]; exact_mod_cast by omega)
    (by rw [jsRound_natCast]; positivity) (by rw [jsRound_natCast]; exact_mod_cast by omega)
    (by rw [jsRound_natCast]; positivity) (by rw [jsRound_natCast]; exact_mod_cast by omega)
  rw [hb, jsRound_natCast, jsRound_natCast, jsRound_natCast,
    Int.toNat_ofNat, Int.toNat_ofNat, Int.toNat_ofNat]

theorem wf_decomp (l : List Char) (h : WellFormedHex l) :
    ∃ t : List Char, l = '#' :: t ∧ t.length = 6 ∧ t.all isLowerHexDigit = true := by
  obtain ⟨hlen, htake, hall⟩ := h
  cases l with
  | nil => simp at hlen
  | cons c t =>
    simp only [List.take_succ_cons, List.take_zero] at htake
    have hc : c = '#' := by simpa using htake
    subst hc
    exact ⟨t, rfl, by simpa using hlen, by simpa using hall⟩

theorem hexToRgb_comp (l : List Char) (h : WellFormedHex l) :
    ∃ R G B : ℕ, R < 256 ∧ G < 256 ∧ B < 256 ∧
      hexToRgb l = ((R : ℚ), (G : ℚ), (B : ℚ)) ∧
      rgbToHex (R : ℚ) (G : ℚ) (B : ℚ) = l := by
  obtain ⟨t, rfl, hlen, hall⟩ := wf_decomp l h
  set n := ofHexDigits t with hn_def
  have hn : n < 16777216 := by
    have h2 := ofHexDigits_lt t hall
    rw [hlen] at h2
    norm_num at h2
    exact h2
  refine ⟨n / 65536, n / 256 % 256, n % 256, by omega, by omega, by omega, ?_, ?_⟩
  · exact hexToRgb_wf t hlen hall
  · rw [rgbToHex_natCast _ _ _ (by omega) (by omega) (by omega)]
    have hsum : n / 65536 * 65536 + n / 256 % 256 * 256 + n % 256 = n := by omega
    rw [hsum, ← hlen, hexPad_ofHexDigits t hall]

end P0

/-- C8: for every well-formed lowercase hex color string, `rgbToHex` applied
to the channels of `hexToRgb` returns the same string; consequently
`lerpColor` at `t = 0` returns the start color and at `t = 1` the target. -/
theorem c8_hex_roundtrip :
    (∀ l : List Char, P0.WellFormedHex l →
      P0.rgbToHex (P0.hexToRgb l).1 (P0.hexToRgb l).2.1 (P0.hexToRgb l).2.2 = l) ∧
    (∀ l1 l2 : List Char, P0.WellFormedHex l1 → P0.WellFormedHex l2 →
      P0.lerpColor l1 l2 0 = l1 ∧ P0.lerpColor l1 l2 1 = l2) := by
  constructor
  · intro l hl
    obtain ⟨R, G, B, -, -, -, he, hr⟩ := P0.hexToRgb_comp l hl
    rw [he]
    exact hr
  · intro l1 l2 h1 h2
    obtain ⟨R1, G1, B1, -, -, -, he1, hr1⟩ := P0.hexToRgb_comp l1 h1
    obtain ⟨R2, G2, B2, -, -, -, he2, hr2⟩ := P0.hexToRgb_comp l2 h2
    unfold P0.lerpColor
    rw [he1, he2]
    dsimp only
    constructor
    · rw [show ((R1 : ℚ) + ((R2 : ℚ) - (R1 : ℚ)) * 0 : ℚ) = (R1 : ℚ) by ring,
        show ((G1 : ℚ) + ((G2 : ℚ) - (G1 : ℚ)) * 0 : ℚ) = (G1 : ℚ) by ring,
        show ((B1 : ℚ) + ((B2 : ℚ) - (B1 : ℚ)) * 0 : ℚ) = (B1 : ℚ) by ring]
      exact hr1
    · rw [show ((R1 : ℚ) + ((R2 : ℚ) - (R1 : ℚ)) * 1 : ℚ) = (R2 : ℚ) by ring,
        show ((G1 : ℚ) + ((G2 : ℚ) - (G1 : ℚ)) * 1 : ℚ) = (G2 : ℚ) by ring,
        show ((B1 : ℚ) + ((B2 : ℚ) - (B1 : ℚ)) * 1 : ℚ) = (B2 : ℚ) by ring]
      exact hr2

/-- Witness for C8 at the concrete colors of zones 1 and 2. -/
theorem c8_hex_roundtrip_witness :
    P0.WellFormedHex (("#ff5005").data) ∧ P0.WellFormedHex (("#0466c8").data) ∧
    P0.lerpColor (("#ff5005").data) (("#0466c8").data) 0 = ("#ff5005").data ∧
    P0.lerpColor (("#ff5005").data) (("#0466c8").data) 1 = ("#0466c8").data :=
  ⟨by decide, by decide,
   (c8_hex_roundtrip.2 (("#ff5005").data) (("#0466c8").data)
     (by decide) (by decide)).1,
   (c8_hex_roundtrip.2 (("#ff5005").data) (("#0466c8").data)
     (by decide) (by decide)).2⟩

/-- C9: whenever the rounded channel values lie in `[0, 255]`, `rgbToHex`
returns exactly 7 characters: `'#'` followed by six hex digits. -/
theorem c9_rgbToHex_format (r g b : ℚ)
    (hr0 : 0 ≤ P0.jsRound r) (hr1 : P0.jsRound r ≤ 255)
    (hg0 : 0 ≤ P0.jsRound g) (hg1 : P0.jsRound g ≤ 255)
    (hb0 : 0 ≤ P0.jsRound b) (hb1 : P0.jsRound b ≤ 255) :
    (P0.rgbToHex r g b).length = 7 ∧ (P0.rgbToHex r g b).take 1 = ['#'] ∧
      ((P0.rgbToHex r g b).drop 1).all P0.isLowerHexDigit = true := by
  rw [P0.rgbToHex_bounded r g b hr0 hr1 hg0 hg1 hb0 hb1]
  refine ⟨?_, ?_, ?_⟩
  · simp [P0.hexPad_length]
  · simp
  · simpa using P0.hexPad_all_hex 6 _

/-- Witness for C9 at channels (255, 80, 5.4). -/
theorem c9_rgbToHex_format_witness :
    (0 ≤ P0.jsRound 255 ∧ P0.jsRound 255 ≤ 255) ∧
    (P0.rgbToHex 255 80 (27/5)).length = 7 := by
  have h255 : P0.jsRound (255 : ℚ) = 255 := by
    rw [show (255 : ℚ) = ((255 : ℕ) : ℚ) by norm_cast, P0.jsRound_natCast]
    norm_num
  have h80 : P0.jsRound (80 : ℚ) = 80 := by
    rw [show (80 : ℚ) = ((80 : ℕ) : ℚ) by norm_cast, P0.jsRound_natCast]
    norm_num
  have h54 : P0.jsRound (27/5 : ℚ) = 5 := by
    unfold P0.jsRound
    rw [show (27/5 + 1/2 : ℚ) = 59/10 by norm_num]
    rw [Int.floor_eq_iff]
    norm_num
  refine ⟨⟨by rw [h255]; norm_num, by rw [h255]⟩, ?_⟩
  exact (c9_rgbToHex_format 255 80 (27/5) (by rw [h255]; norm_num) (by rw [h255])
    (by rw [h80]; norm_num) (by rw [h80]; norm_num)
    (by rw [h54]; norm_num) (by rw [h54]; norm_num)).1

namespace GB

theorem rawT_eq_one (e : ℚ) (he : 700 ≤ e) : rawT e = 1 := by
  unfold rawT TRANSITION_DURATION
  rw [min_eq_right]
  rw [le_div_iff₀ (by norm_num)]
  linarith

theorem stepContinues_false (e : ℚ) (he : 700 ≤ e) : stepContinues e = false := by
  unfold stepContinues
  rw [rawT_eq_one e he]
  simp

theorem stepProps_done (src tgt : ZoneConfig) (e : ℚ) (he : 700 ≤ e) :
    stepProps src tgt e = tgt := by
  have ht : easeOutCubic (rawT e) = 1 := by
    rw [rawT_eq_one e he]
    unfold easeOutCubic
    ring
  unfold stepProps
  rw [ht]
  unfold lerp
  cases tgt
  simp only [ZoneConfig.mk.injEq]
  refine ⟨?_, ?_, ?_, ?_, ?_, ?_, ?_, ?_, ?_, ?_, ?_, ?_, ?_, trivial⟩ <;> ring

theorem animateTo_anim (tgt : ZoneConfig) (now : ℚ) (s : CompState) :
    (animateToFun tgt now s).anim =
      some { fromCfg := s.current, target := tgt, startTime := now } := by
  unfold animateToFun
  split <;> rfl

theorem animateTo_pending_ne (tgt : ZoneConfig) (now : ℚ) (s : CompState) :
    (animateToFun tgt now s).pending ≠ [] := by
  unfold animateToFun
  split <;> simp

theorem fireFrame_step (s : CompState) (a : AnimState) (now : ℚ)
    (ha : s.anim = some a) (hp : s.pending ≠ []) :
    (fireFrame now s).current = stepProps a.fromCfg a.target (now - a.startTime) ∧
    (fireFrame now s).props = stepProps a.fromCfg a.target (now - a.startTime) := by
  unfold fireFrame
  cases hpd : s.pending with
  | nil => exact absurd hpd hp
  | cons p rest =>
    rw [ha]
    dsimp only
    by_cases hc : stepContinues (now - a.startTime) = true
    · rw [if_pos hc]
      exact ⟨rfl, rfl⟩
    · rw [if_neg hc]
      exact ⟨rfl, rfl⟩

theorem fireFrame_done (s : CompState) (a : AnimState) (now : ℚ)
    (ha : s.anim = some a) (hp : s.pending ≠ [])
    (he : 700 ≤ now - a.startTime) :
    (fireFrame now s).animFrame = 0 ∧
    (fireFrame now s).pending = s.pending.tail := by
  unfold fireFrame
  cases hpd : s.pending with
  | nil => exact absurd hpd hp
  | cons p rest =>
    rw [ha]
    dsimp only
    rw [stepContinues_false _ he]
    simp

end GB

namespace GB

theorem pending_erase_nil (s : CompState) (hs : Inv s) :
    s.pending.erase s.animFrame = [] := by
  obtain ⟨h0, hlen, hne, hpos⟩ := hs
  cases hp : s.pending with
  | nil => rfl
  | cons p rest =>
    obtain ⟨hpeq, -, -⟩ := hne (by rw [hp]; simp)
    rw [hp] at hpeq
    injection hpeq with h1 h2
    subst h1
    subst h2
    simp

theorem animateTo_pending (tgt : ZoneConfig) (now : ℚ) (s : CompState)
    (hs : Inv s) : (animateToFun tgt now s).pending = [s.nextId] := by
  have hkey := pending_erase_nil s hs
  unfold animateToFun
  by_cases haf : s.animFrame ≠ 0
  · rw [if_pos haf]
    dsimp only
    rw [hkey]
    rfl
  · rw [if_neg haf]
    dsimp only
    push_neg at haf
    rw [hs.1 haf]
    rfl

theorem inv_animateTo (tgt : ZoneConfig) (now : ℚ) (s : CompState) (hs : Inv s) :
    Inv (animateToFun tgt now s) := by
  have hpend := animateTo_pending tgt now s hs
  have hanim := animateTo_anim tgt now s
  have haf : (animateToFun tgt now s).animFrame = s.nextId := by
    unfold animateToFun
    split <;> rfl
  have hnid : (animateToFun tgt now s).nextId = s.nextId + 1 := by
    unfold animateToFun
    split <;> rfl
  have hpos := hs.2.2.2
  refine ⟨?_, ?_, ?_, ?_⟩
  · intro h
    rw [haf] at h
    omega
  · rw [hpend]
    simp
  · intro _
    rw [hpend, haf, hanim]
    exact ⟨rfl, by omega, rfl⟩
  · rw [hnid]
    omega

theorem fireFrame_char (s : CompState) (a : AnimState) (now : ℚ)
    (hpeq : s.pending = [s.animFrame]) (ha : s.anim = some a) :
    (stepContinues (now - a.startTime) = true →
      fireFrame now s =
        { s with current := stepProps a.fromCfg a.target (now - a.startTime),
                 props := stepProps a.fromCfg a.target (now - a.startTime),
                 animFrame := s.nextId, pending := [s.nextId],
                 nextId := s.nextId + 1, anim := some a }) ∧
    (stepContinues (now - a.startTime) = false →
      fireFrame now s =
        { s with current := stepProps a.fromCfg a.target (now - a.startTime),
                 props := stepProps a.fromCfg a.target (now - a.startTime),
                 animFrame := 0, pending := [], anim := some a }) := by
  constructor
  · intro hb
    unfold fireFrame
    rw [hpeq, ha]
    dsimp only
    rw [hb]
    simp
  · intro hb
    unfold fireFrame
    rw [hpeq, ha]
    dsimp only
    rw [hb]
    simp

theorem inv_fireFrame (now : ℚ) (s : CompState) (hs : Inv s) :
    Inv (fireFrame now s) := by
  obtain ⟨h0, hlen, hne, hpos⟩ := hs
  by_cases hpe : s.pending = []
  · have hff : fireFrame now s = s := by
      unfold fireFrame
      rw [hpe]
    rw [hff]
    exact ⟨h0, hlen, hne, hpos⟩
  · obtain ⟨hpeq, hfne, hsome⟩ := hne hpe
    obtain ⟨a, ha⟩ := Option.isSome_iff_exists.mp hsome
    have hchar := fireFrame_char s a now hpeq ha
    cases hb : stepContinues (now - a.startTime) with
    | false =>
      rw [hchar.2 hb]
      refine ⟨fun _ => rfl, by simp, ?_, by dsimp only; omega⟩
      intro h
      simp at h
    | true =>
      rw [hchar.1 hb]
      refine ⟨?_, by simp, ?_, by dsimp only; omega⟩
      · intro h
        dsimp only at h
        omega
      · intro _
        exact ⟨rfl, by dsimp only; omega, rfl⟩

theorem unmount_pending (s : CompState) (hs : Inv s) :
    (unmountFun s).pending = [] := by
  have hkey := pending_erase_nil s hs
  unfold unmountFun
  dsimp only
  split
  · exact hkey
  · rename_i h
    push_neg at h
    exact hs.1 h

theorem inv_unmount (s : CompState) (hs : Inv s) : Inv (unmountFun s) := by
  have hpe := unmount_pending s hs
  have hnid : (unmountFun s).nextId = s.nextId := by
    unfold unmountFun
    dsimp only
    split <;> rfl
  refine ⟨fun _ => hpe, by rw [hpe]; simp, fun h => absurd hpe h, ?_⟩
  rw [hnid]
  exact hs.2.2.2

theorem inv_applyEv (s : CompState) (hs : Inv s) (ev : Ev) :
    Inv (applyEv s ev) := by
  cases ev with
  | transitionEv i now =>
    simp only [applyEv]
    split
    · unfold handleTransition
      cases hc : getConfig i with
      | none => exact hs
      | some c => exact inv_animateTo c now s hs
    · exact hs
  | frameEv now =>
    simp only [applyEv]
    exact inv_fireFrame now s hs
  | unmountEv =>
    simp only [applyEv]
    exact inv_unmount s hs

theorem inv_init : Inv initState := by
  refine ⟨fun _ => rfl, by simp [initState], ?_, by norm_num [initState]⟩
  intro h
  exact absurd rfl h

theorem inv_run (evs : List Ev) : Inv (run evs) := by
  unfold run
  have h : ∀ (l : List Ev) (s : CompState), Inv s → Inv (l.foldl applyEv s) := by
    intro l
    induction l with
    | nil => exact fun s hs => hs
    | cons ev t ih => exact fun s hs => ih _ (inv_applyEv s hs ev)
  exact h evs initState inv_init

end GB

namespace GB

theorem lerp_mem (a b t : ℚ) (h0 : 0 ≤ t) (h1 : t ≤ 1) :
    min a b ≤ lerp a b t ∧ lerp a b t ≤ max a b := by
  unfold lerp
  rcases le_total a b with hab | hab
  · rw [min_eq_left hab, max_eq_right hab]
    constructor <;> nlinarith
  · rw [min_eq_right hab, max_eq_left hab]
    constructor <;> nlinarith

theorem ease_mem (t : ℚ) (h0 : 0 ≤ t) (h1 : t ≤ 1) :
    0 ≤ easeOutCubic t ∧ easeOutCubic t ≤ 1 := by
  unfold easeOutCubic
  constructor <;> nlinarith [pow_nonneg (by linarith : (0:ℚ) ≤ 1 - t) 3,
    pow_le_one₀ (by linarith : (0:ℚ) ≤ 1 - t) (by linarith : 1 - t ≤ 1) (n := 3)]

theorem rawT_mem (e : ℚ) (he : 0 ≤ e) : 0 ≤ rawT e ∧ rawT e ≤ 1 := by
  unfold rawT TRANSITION_DURATION
  constructor
  · exact le_min (by positivity) (by norm_num)
  · exact min_le_right _ _

end GB

/-- C10: given non-negative elapsed time, `rawT` lies in `[0, 1]`;
`easeOutCubic` is monotone on `[0, 1]` with `easeOutCubic 0 = 0` and
`easeOutCubic 1 = 1`, mapping `[0, 1]` into `[0, 1]`; hence every numeric
value a `step` produces lies between `min from target` and
`max from target`. -/
theorem c10_no_overshoot :
    (∀ e : ℚ, 0 ≤ e → 0 ≤ GB.rawT e ∧ GB.rawT e ≤ 1) ∧
    (∀ t1 t2 : ℚ, 0 ≤ t1 → t1 ≤ t2 → t2 ≤ 1 →
      GB.easeOutCubic t1 ≤ GB.easeOutCubic t2) ∧
    GB.easeOutCubic 0 = 0 ∧ GB.easeOutCubic 1 = 1 ∧
    (∀ t : ℚ, 0 ≤ t → t ≤ 1 → 0 ≤ GB.easeOutCubic t ∧ GB.easeOutCubic t ≤ 1) ∧
    (∀ (src tgt : GB.ZoneConfig) (e : ℚ), 0 ≤ e → ∀ k : GB.NumKey,
      min (GB.getNum src k) (GB.getNum tgt k) ≤
        GB.getNum (GB.stepProps src tgt e) k ∧
      GB.getNum (GB.stepProps src tgt e) k ≤
        max (GB.getNum src k) (GB.getNum tgt k)) := by
  refine ⟨GB.rawT_mem, ?_, by unfold GB.easeOutCubic; ring, by unfold GB.easeOutCubic; ring,
    GB.ease_mem, ?_⟩
  · intro t1 t2 h0 h12 h1
    unfold GB.easeOutCubic
    have := pow_le_pow_left₀ (by linarith : (0:ℚ) ≤ 1 - t2)
      (by linarith : 1 - t2 ≤ 1 - t1) 3
    linarith
  · intro src tgt e he k
    obtain ⟨hr0, hr1⟩ := GB.rawT_mem e he
    obtain ⟨he0, he1⟩ := GB.ease_mem _ hr0 hr1
    have hl := GB.lerp_mem (GB.getNum src k) (GB.getNum tgt k) _ he0 he1
    cases k <;> exact hl

/-- Witness for C10 at `e = 350`, `t1 = 0`, `t2 = 1`, `t = 1/2`, zones 0, 1,
key `uStrength`. -/
theorem c10_no_overshoot_witness :
    ((0:ℚ) ≤ 350 ∧ 0 ≤ GB.rawT 350 ∧ GB.rawT 350 ≤ 1) ∧
    ((0:ℚ) ≤ 0 ∧ (0:ℚ) ≤ 1 ∧ (1:ℚ) ≤ 1 ∧
      GB.easeOutCubic 0 ≤ GB.easeOutCubic 1) ∧
    ((0:ℚ) ≤ 1/2 ∧ (1/2:ℚ) ≤ 1 ∧ 0 ≤ GB.easeOutCubic (1/2) ∧
      GB.easeOutCubic (1/2) ≤ 1) ∧
    (min (GB.getNum (GB.ZONE_CONFIGS.get ⟨0, by decide⟩) GB.NumKey.uStrength)
        (GB.getNum (GB.ZONE_CONFIGS.get ⟨4, by decide⟩) GB.NumKey.uStrength) ≤
      GB.getNum (GB.stepProps (GB.ZONE_CONFIGS.get ⟨0, by decide⟩)
        (GB.ZONE_CONFIGS.get ⟨4, by decide⟩) 350) GB.NumKey.uStrength) := by
  refine ⟨⟨by norm_num, c10_no_overshoot.1 350 (by norm_num)⟩,
    ⟨by norm_num, by norm_num, by norm_num,
      c10_no_overshoot.2.1 0 1 (by norm_num) (by norm_num) (by norm_num)⟩,
    ⟨by norm_num, by norm_num,
      c10_no_overshoot.2.2.2.2.1 (1/2) (by norm_num) (by norm_num)⟩,
    (c10_no_overshoot.2.2.2.2.2 (GB.ZONE_CONFIGS.get ⟨0, by decide⟩)
      (GB.ZONE_CONFIGS.get ⟨4, by decide⟩) 350 (by norm_num)
      GB.NumKey.uStrength).1⟩

/-- C7: the two variants define the same `lerp` and `easeOutCubic`
functions and share the transition duration 700. -/
theorem c7_variants_equivalent :
    (∀ a b t : ℚ, GB.lerp a b t = P0.lerp a b t) ∧
    (∀ t : ℚ, GB.easeOutCubic t = P0.easeOutCubic t) ∧
    GB.TRANSITION_DURATION = 700 ∧ P0.TRANSITION_DURATION = 700 :=
  ⟨fun _ _ _ => rfl, fun _ => rfl, rfl, rfl⟩

/-- C3: once elapsed time reaches 700 ms, `rawT` is clamped to 1, `step`
requests no further frame (and a fired frame resets `animFrameRef` to 0
and leaves nothing newly scheduled), and every interpolated parameter
equals the target exactly. -/
theorem c3_transition_completes (src tgt : GB.ZoneConfig) (e : ℚ)
    (he : 700 ≤ e) :
    GB.rawT e = 1 ∧ GB.stepContinues e = false ∧
    GB.stepProps src tgt e = tgt ∧
    (∀ (s : GB.CompState) (a : GB.AnimState) (now : ℚ),
      s.anim = some a → s.pending ≠ [] → 700 ≤ now - a.startTime →
      (GB.fireFrame now s).animFrame = 0 ∧
      (GB.fireFrame now s).pending = s.pending.tail) :=
  ⟨GB.rawT_eq_one e he, GB.stepContinues_false e he,
   GB.stepProps_done src tgt e he,
   fun s a now ha hp hne => GB.fireFrame_done s a now ha hp hne⟩

/-- Witness for C3 at zones 0 → 4, elapsed 700. -/
theorem c3_transition_completes_witness :
    (700:ℚ) ≤ 700 ∧
    GB.stepProps (GB.ZONE_CONFIGS.get ⟨0, by decide⟩)
      (GB.ZONE_CONFIGS.get ⟨4, by decide⟩) 700 =
      GB.ZONE_CONFIGS.get ⟨4, by decide⟩ :=
  ⟨by norm_num,
   (c3_transition_completes (GB.ZONE_CONFIGS.get ⟨0, by decide⟩)
     (GB.ZONE_CONFIGS.get ⟨4, by decide⟩) 700 (by norm_num)).2.2.1⟩

/-- C4: at most one animation frame is ever pending: after any event
sequence the pending queue holds at most one callback; starting a new
transition leaves exactly the newly requested frame pending (the previous
one is cancelled first), and unmounting cancels any pending frame. -/
theorem c4_single_animation_in_flight (evs : List GB.Ev) :
    (GB.run evs).pending.length ≤ 1 ∧
    (∀ (tgt : GB.ZoneConfig) (now : ℚ),
      (GB.animateToFun tgt now (GB.run evs)).pending = [(GB.run evs).nextId]) ∧
    (GB.unmountFun (GB.run evs)).pending = [] :=
  ⟨(GB.inv_run evs).2.1,
   fun tgt now => GB.animateTo_pending tgt now (GB.run evs) (GB.inv_run evs),
   GB.unmount_pending (GB.run evs) (GB.inv_run evs)⟩

/-- C6: `animateTo` snapshots `from` as the value of `currentRef.current`
at the moment the transition is triggered, and after every fired frame
`currentRef.current` equals the freshly rendered interpolated values. -/
theorem c6_from_current_snapshot :
    (∀ (tgt : GB.ZoneConfig) (now : ℚ) (s : GB.CompState),
      (GB.animateToFun tgt now s).anim =
        some { fromCfg := s.current, target := tgt, startTime := now }) ∧
    (∀ (s : GB.CompState) (a : GB.AnimState) (now : ℚ),
      s.anim = some a → s.pending ≠ [] →
      (GB.fireFrame now s).current =
        GB.stepProps a.fromCfg a.target (now - a.startTime) ∧
      (GB.fireFrame now s).props =
        GB.stepProps a.fromCfg a.target (now - a.startTime)) :=
  ⟨GB.animateTo_anim, GB.fireFrame_step⟩

/-- Witness for C6: a transition to zone 4 at time 5 from the initial
state, then a frame at time 355. -/
theorem c6_from_current_snapshot_witness :
    (GB.animateToFun (GB.ZONE_CONFIGS.get ⟨4, by decide⟩) 5 GB.initState).anim =
      some { fromCfg := GB.initState.current,
             target := GB.ZONE_CONFIGS.get ⟨4, by decide⟩, startTime := 5 } ∧
    (GB.fireFrame 355
        (GB.animateToFun (GB.ZONE_CONFIGS.get ⟨4, by decide⟩) 5 GB.initState)).current =
      GB.stepProps GB.initState.current (GB.ZONE_CONFIGS.get ⟨4, by decide⟩)
        (355 - 5) :=
  ⟨c6_from_current_snapshot.1 (GB.ZONE_CONFIGS.get ⟨4, by decide⟩) 5 GB.initState,
   (c6_from_current_snapshot.2
     (GB.animateToFun (GB.ZONE_CONFIGS.get ⟨4, by decide⟩) 5 GB.initState)
     { fromCfg := GB.initState.current,
       target := GB.ZONE_CONFIGS.get ⟨4, by decide⟩, startTime := 5 }
     355 rfl (by decide)).1⟩

/-- C5: a `gradient-transition` event whose `zoneIndex` is not one of
0..4 leaves the state unchanged; an index 0..4 looks up the zone
configuration and starts a transition toward it. -/
theorem c5_invalid_zone_ignored :
    (∀ (i : ℤ) (now : ℚ) (s : GB.CompState), (i < 0 ∨ 5 ≤ i) →
      GB.handleTransition i now s = s) ∧
    (∀ (i : ℤ) (now : ℚ) (s : GB.CompState), 0 ≤ i → i < 5 →
      ∃ c, GB.getConfig i = some c ∧
        GB.handleTransition i now s = GB.animateToFun c now s ∧
        (GB.handleTransition i now s).anim =
          some { fromCfg := s.current, target := c, startTime := now } ∧
        (GB.handleTransition i now s).pending ≠ []) := by
  constructor
  · intro i now s hi
    have hc : GB.getConfig i = none := by
      unfold GB.getConfig
      rcases hi with hi | hi
      · rw [if_pos hi]
      · rw [if_neg (by omega)]
        apply List.getElem?_eq_none
        have : GB.ZONE_CONFIGS.length = 5 := rfl
        omega
    unfold GB.handleTransition
    rw [hc]
  · intro i now s h0 h5
    have hlt : i.toNat < GB.ZONE_CONFIGS.length := by
      have : GB.ZONE_CONFIGS.length = 5 := rfl
      omega
    have hc : GB.getConfig i = some (GB.ZONE_CONFIGS.get ⟨i.toNat, hlt⟩) := by
      unfold GB.getConfig
      rw [if_neg (by omega)]
      rw [List.getElem?_eq_getElem hlt]
      simp [List.get_eq_getElem]
    refine ⟨GB.ZONE_CONFIGS.get ⟨i.toNat, hlt⟩, hc, ?_, ?_, ?_⟩
    · unfold GB.handleTransition
      rw [hc]
    · unfold GB.handleTransition
      rw [hc]
      exact GB.animateTo_anim _ now s
    · unfold GB.handleTransition
      rw [hc]
      exact GB.animateTo_pending_ne _ now s

/-- Witness for C5 at the invalid indices `-3` and `7` and the valid
index `2`. -/
theorem c5_invalid_zone_ignored_witness :
    (((-3 : ℤ) < 0 ∨ 5 ≤ (-3 : ℤ)) ∧
      GB.handleTransition (-3) 0 GB.initState = GB.initState) ∧
    (((7 : ℤ) < 0 ∨ 5 ≤ (7 : ℤ)) ∧
      GB.handleTransition 7 0 GB.initState = GB.initState) ∧
    ((0 : ℤ) ≤ 2 ∧ (2 : ℤ) < 5 ∧
      ∃ c, GB.getConfig 2 = some c ∧
        GB.handleTransition 2 0 GB.initState =
          GB.animateToFun c 0 GB.initState ∧
        (GB.handleTransition 2 0 GB.initState).anim =
          some { fromCfg := GB.initState.current, target := c, startTime := 0 } ∧
        (GB.handleTransition 2 0 GB.initState).pending ≠ []) :=
  ⟨⟨Or.inl (by norm_num),
    c5_invalid_zone_ignored.1 (-3) 0 GB.initState (Or.inl (by norm_num))⟩,
   ⟨Or.inr (by norm_num),
    c5_invalid_zone_ignored.1 7 0 GB.initState (Or.inr (by norm_num))⟩,
   ⟨by norm_num, by norm_num,
    c5_invalid_zone_ignored.2 2 0 GB.initState (by norm_num) (by norm_num)⟩⟩

/-- C2 counterexample: in `GradientBackground.tsx` the three colors passed
to `ShaderGradient` are string literals: during the transition from zone 0
to zone 2 they are identical at elapsed 0, at elapsed 350 and at elapsed
700 — held constant, not interpolated. -/
theorem c2_colors_constant_counterexample :
    GB.renderColor1 (GB.stepProps (GB.ZONE_CONFIGS.get ⟨0, by decide⟩)
        (GB.ZONE_CONFIGS.get ⟨2, by decide⟩) 350) =
      GB.renderColor1 (GB.stepProps (GB.ZONE_CONFIGS.get ⟨0, by decide⟩)
        (GB.ZONE_CONFIGS.get ⟨2, by decide⟩) 0) ∧
    GB.renderColor1 (GB.stepProps (GB.ZONE_CONFIGS.get ⟨0, by decide⟩)
        (GB.ZONE_CONFIGS.get ⟨2, by decide⟩) 700) = ("#7b2cbf").data ∧
    GB.renderColor2 (GB.stepProps (GB.ZONE_CONFIGS.get ⟨0, by decide⟩)
        (GB.ZONE_CONFIGS.get ⟨2, by decide⟩) 700) = ("#d17db8").data ∧
    GB.renderColor3 (GB.stepProps (GB.ZONE_CONFIGS.get ⟨0, by decide⟩)
        (GB.ZONE_CONFIGS.get ⟨2, by decide⟩) 700) = ("#e6d0de").data :=
  ⟨rfl, rfl, rfl, rfl⟩

/-- C2 amended: each variant interpolates exactly the parameters in its own
configuration table: the `ZoneConfig` variant tweens its 13 numeric
parameters while passing three constant color literals to the renderer;
the `SectionConfig` variant tweens its three colors (via `lerpColor`) and
`positionY`. -/
theorem c2_per_variant_interpolation :
    (∀ (src tgt : GB.ZoneConfig) (e : ℚ) (k : GB.NumKey),
      GB.getNum (GB.stepProps src tgt e) k =
        GB.lerp (GB.getNum src k) (GB.getNum tgt k)
          (GB.easeOutCubic (GB.rawT e))) ∧
    (∀ s : GB.ZoneConfig,
      GB.renderColor1 s = ("#7b2cbf").data ∧
      GB.renderColor2 s = ("#d17db8").data ∧
      GB.renderColor3 s = ("#e6d0de").data) ∧
    (∀ (src tgt : P0.SectionConfig) (e : ℚ),
      (P0.stepProps src tgt e).color1 =
        P0.lerpColor src.color1 tgt.color1 (P0.easeOutCubic (P0.rawT e)) ∧
      (P0.stepProps src tgt e).color2 =
        P0.lerpColor src.color2 tgt.color2 (P0.easeOutCubic (P0.rawT e)) ∧
      (P0.stepProps src tgt e).color3 =
        P0.lerpColor src.color3 tgt.color3 (P0.easeOutCubic (P0.rawT e)) ∧
      (P0.stepProps src tgt e).positionY =
        P0.lerp src.positionY tgt.positionY (P0.easeOutCubic (P0.rawT e))) := by
  refine ⟨?_, fun s => ⟨rfl, rfl, rfl⟩, fun src tgt e => ⟨rfl, rfl, rfl, rfl⟩⟩
  intro src tgt e k
  cases k <;> rfl
